import Mathlib

/-!
Verification of the Canon Engine of the halcyon-cinema repository.

The definitions below are a shallow embedding of
src/modules/storyforge/canon/manager.ts (class CanonManager) and
src/modules/storyforge/engine/generator.ts (StoryForgeGenerator.validateAgainstCanon),
together with the storage constraints declared in the initial database schema
(supabase migration: partial unique index idx_canon_project_slug on
(project_id, slug) WHERE is_active, partial unique index idx_timelines_main on
(project_id) WHERE is_main).

The database is modelled as explicit lists of rows; fresh ids
(uuid_generate_v4 / generateId) are modelled by a counter in the state.
Fields that no claim observes (timestamps, search vectors, reference counts,
actor bookkeeping columns locked_at/locked_by) are omitted as projections.
JSONB payloads are modelled as association lists of string attributes.
-/

namespace Halcyon

/-- Row/actor identifiers (uuids in the source) are modelled as naturals. -/
abbrev Id := Nat

/-- A kind-specific JSONB payload: a mapping of attribute name to value. -/
abbrev EntityData := List (String × String)

/-- SQL enum canon_lock_status. -/
inductive LockStatus
  | unlocked
  | soft_locked
  | hard_locked
deriving DecidableEq

/-- SQL enum canon_entity_type. -/
inductive EntityType
  | character
  | location
  | rule
  | event
  | theme
  | reference
  | item
  | relationship
deriving DecidableEq

/-- SQL enum conflict_resolution. -/
inductive ConflictResolution
  | keep_canon
  | update_canon
  | fork_timeline
deriving DecidableEq

/-- A row of the canon_entries table. -/
structure CanonEntry where
  id : Id
  project_id : Id
  entity_type : EntityType
  name : String
  slug : String
  description : Option String
  data : EntityData
  lock_status : LockStatus
  version : Nat
  timeline_id : Option Id
  is_active : Bool
deriving DecidableEq

/-- A row of the canon_versions table. -/
structure CanonVersion where
  canon_entry_id : Id
  version : Nat
  name : String
  description : Option String
  data : EntityData
  changed_by : Option Id
  change_reason : String
  change_type : String
deriving DecidableEq

/-- A row of the timelines table. -/
structure Timeline where
  id : Id
  project_id : Id
  name : String
  description : Option String
  is_main : Bool
  parent_timeline_id : Option Id
  fork_point_event_id : Option Id
deriving DecidableEq

/-- A row of one of the five kind-specific tables (canon_characters,
canon_locations, canon_rules, canon_events, canon_themes); the kind-specific
columns spread from the payload are kept in the data field. -/
structure TypeRecord where
  id : Id
  canon_entry_id : Id
  project_id : Id
  name : String
  data : EntityData
deriving DecidableEq

/-- The durable store, plus the fresh-id counter. -/
structure DB where
  canon_entries : List CanonEntry
  canon_versions : List CanonVersion
  timelines : List Timeline
  canon_characters : List TypeRecord
  canon_locations : List TypeRecord
  canon_rules : List TypeRecord
  canon_events : List TypeRecord
  canon_themes : List TypeRecord
  nextId : Id
deriving DecidableEq

/-- PostgREST .single(): succeeds exactly when one row matches the filters. -/
def single? (p : α → Bool) (l : List α) : Option α :=
  match l.filter p with
  | [a] => some a
  | _ => none

/-- Modelled from the spec: the slugify helper lives in lib/utils, which is not
among the sources; the spec says an entry carries a URL-safe slug derived from
its display name. Any deterministic derivation serves; we lowercase and turn
spaces into dashes. -/
def slugify (name : String) : String :=
  String.map (fun c => if c = ' ' then '-' else c.toLower) name

/-- JS truthiness of an optional string: undefined and the empty string are falsy. -/
def truthy : Option String → Option String
  | some s => if s = "" then none else some s
  | none => none

/-- JS expression (s || d) for an optional string s. -/
def truthyOr (o : Option String) (d : String) : String :=
  match truthy o with
  | some s => s
  | none => d

/-- JS nullish coalescing (a ?? d) on the undefined/null-aware description
encoding: the fallback fires when a is undefined (outer none) OR null
(some none); only a present non-null string passes through. -/
def nullishOr (o : Option (Option String)) (d : Option String) : Option String :=
  match o with
  | some (some s) => some s
  | _ => d

/-- Fresh id allocation (uuid_generate_v4 / generateId). -/
def genId (db : DB) : Id × DB :=
  (db.nextId, { db with nextId := db.nextId + 1 })

/-- Does some active row of the project already hold this slug
(the partial unique index idx_canon_project_slug)? -/
def slugTaken (db : DB) (pid : Id) (slug : String) : Bool :=
  db.canon_entries.any (fun x => x.is_active && x.project_id == pid && x.slug == slug)

/-- Like slugTaken but ignoring one row (used when that row itself is updated). -/
def slugTakenExceptId (db : DB) (exceptId pid : Id) (slug : String) : Bool :=
  db.canon_entries.any
    (fun x => !(x.id == exceptId) && x.is_active && x.project_id == pid && x.slug == slug)

/-- INSERT into canon_entries; fails when the partial unique index
idx_canon_project_slug on (project_id, slug) WHERE is_active is violated. -/
def insertCanonEntry (db : DB) (e : CanonEntry) : Option DB :=
  if e.is_active && slugTaken db e.project_id e.slug then none
  else some { db with canon_entries := db.canon_entries ++ [e] }

/-- INSERT into timelines; fails when the partial unique index
idx_timelines_main on (project_id) WHERE is_main is violated. -/
def insertTimeline (db : DB) (t : Timeline) : Option DB :=
  if t.is_main && db.timelines.any (fun x => x.is_main && x.project_id == t.project_id) then none
  else some { db with timelines := db.timelines ++ [t] }

/-- CanonManager.createVersion: appends a canon_versions row; the source always
writes change_type 'manual'. -/
def createVersion (db : DB) (canonEntryId : Id) (version : Nat) (name : String)
    (description : Option String) (data : EntityData) (userId : Option Id)
    (reason : String) : DB :=
  { db with canon_versions := db.canon_versions ++
      [⟨canonEntryId, version, name, description, data, userId, reason, "manual"⟩] }

/-- CanonManager.createTypeSpecificRecord: inserts the kind-specific row for the
five handled kinds and reports failure (null) for every other kind. -/
def createTypeSpecificRecord (db : DB) (entityType : EntityType) (projectId : Id)
    (canonEntryId : Id) (name : String) (data : EntityData) : Option Id × DB :=
  match entityType with
  | .character =>
    let (i, db1) := genId db
    (some i, { db1 with canon_characters := db1.canon_characters ++ [⟨i, canonEntryId, projectId, name, data⟩] })
  | .location =>
    let (i, db1) := genId db
    (some i, { db1 with canon_locations := db1.canon_locations ++ [⟨i, canonEntryId, projectId, name, data⟩] })
  | .rule =>
    let (i, db1) := genId db
    (some i, { db1 with canon_rules := db1.canon_rules ++ [⟨i, canonEntryId, projectId, name, data⟩] })
  | .event =>
    let (i, db1) := genId db
    (some i, { db1 with canon_events := db1.canon_events ++ [⟨i, canonEntryId, projectId, name, data⟩] })
  | .theme =>
    let (i, db1) := genId db
    (some i, { db1 with canon_themes := db1.canon_themes ++ [⟨i, canonEntryId, projectId, name, data⟩] })
  | _ => (none, db)

/-- CanonManager.createEntry: inserts the shared canon_entries row (version 1,
unlocked, active, main timeline by the schema defaults), then the kind-specific
row, rolling the shared row back when the latter fails, and finally the initial
canon_versions row with reason 'Created'. The initial version's description
goes through the JS expression (description || null). -/
def createEntry (db : DB) (projectId : Id) (entityType : EntityType) (name : String)
    (description : Option String) (entityData : EntityData) :
    Option (CanonEntry × Id) × DB :=
  let slug := slugify name
  let (eid, db1) := genId db
  let entry : CanonEntry :=
    ⟨eid, projectId, entityType, name, slug, description, entityData, .unlocked, 1, none, true⟩
  match insertCanonEntry db1 entry with
  | none => (none, db)
  | some db2 =>
    match createTypeSpecificRecord db2 entityType projectId eid name entityData with
    | (none, db3) =>
      (none, { db3 with canon_entries := db3.canon_entries.filter (fun x => !(x.id == eid)) })
    | (some entityId, db3) =>
      (some (entry, entityId), createVersion db3 eid 1 name (truthy description) entityData none "Created")

/-- The partial update supplied to updateEntry. The description field uses an
outer option for JS undefined and an inner option for JS null, because
restoreVersion passes a possibly-null stored description through it. -/
structure EntryPatch where
  name : Option String
  description : Option (Option String)
  entityData : Option EntityData
deriving DecidableEq

/-- The row produced by applying an EntryPatch the way updateEntry builds its
entryUpdates object: name and slug only for a truthy name, description when the
field is not undefined, data when present, and version always set to one more
than the previously fetched version. -/
def applyEntryUpdates (u : EntryPatch) (current x : CanonEntry) : CanonEntry :=
  let x1 := match truthy u.name with
    | some n => { x with name := n, slug := slugify n }
    | none => x
  let x2 := match u.description with
    | some d => { x1 with description := d }
    | none => x1
  let x3 := match u.entityData with
    | some ed => { x2 with data := ed }
    | none => x2
  { x3 with version := current.version + 1 }

/-- CanonManager.updateTypeSpecificRecord: rewrites name and payload of the
kind-specific row matching the entry; a no-op for unhandled kinds. -/
def updateTypeSpecificRecord (db : DB) (entityType : EntityType) (canonEntryId : Id)
    (name : String) (data : EntityData) : DB :=
  let f : TypeRecord → TypeRecord := fun r =>
    if r.canon_entry_id == canonEntryId then { r with name := name, data := data } else r
  match entityType with
  | .character => { db with canon_characters := db.canon_characters.map f }
  | .location => { db with canon_locations := db.canon_locations.map f }
  | .rule => { db with canon_rules := db.canon_rules.map f }
  | .event => { db with canon_events := db.canon_events.map f }
  | .theme => { db with canon_themes := db.canon_themes.map f }
  | _ => db

/-- CanonManager.updateEntry: fetches the row, refuses hard-locked entries,
applies the partial update with version := current + 1 (the UPDATE fails when
the new slug would violate the partial unique index), mirrors the payload into
the kind-specific table when entityData is given, and appends the version
snapshot with the given reason (default 'Updated'). -/
def updateEntry (db : DB) (entryId : Id) (u : EntryPatch) (userId : Option Id)
    (reason : Option String) : Bool × DB :=
  match single? (fun x => x.id == entryId) db.canon_entries with
  | none => (false, db)
  | some current =>
    if current.lock_status = .hard_locked then (false, db)
    else
      let updated := applyEntryUpdates u current current
      if updated.is_active && slugTakenExceptId db entryId updated.project_id updated.slug then
        (false, db)
      else
        let db1 := { db with canon_entries :=
          db.canon_entries.map (fun x => if x.id == entryId then applyEntryUpdates u current x else x) }
        let db2 := match u.entityData with
          | some ed => updateTypeSpecificRecord db1 current.entity_type entryId (truthyOr u.name current.name) ed
          | none => db1
        (true, createVersion db2 entryId (current.version + 1) (truthyOr u.name current.name)
          (nullishOr u.description current.description) (u.entityData.getD current.data)
          userId (truthyOr reason "Updated"))

/-- CanonManager.lockEntry: rewrites the lock status of the matching row. -/
def lockEntry (db : DB) (entryId : Id) (lockStatus : LockStatus) (userId : Id) : Bool × DB :=
  (true, { db with canon_entries :=
    db.canon_entries.map (fun x => if x.id == entryId then { x with lock_status := lockStatus } else x) })

/-- CanonManager.deleteEntry: soft delete by clearing is_active. -/
def deleteEntry (db : DB) (entryId : Id) : Bool × DB :=
  (true, { db with canon_entries :=
    db.canon_entries.map (fun x => if x.id == entryId then { x with is_active := false } else x) })

/-- CanonManager.forkTimeline: fetches the conflicting entry, inserts a new
timelines row with is_main false and parent_timeline_id null (the source leaves
a comment that the main timeline would need to be found), then tries to insert
a duplicate of the entry carrying the new timeline id and version 1. The
duplicate keeps the original slug and active flag, so the insert hits the
partial unique slug index whenever the original is active; the timeline row has
already been committed and stays behind. -/
def forkTimeline (db : DB) (projectId forkPointCanonId : Id) (name description : String)
    (userId : Id) : Bool × DB :=
  match single? (fun x => x.id == forkPointCanonId) db.canon_entries with
  | none => (false, db)
  | some canonEntry =>
    let (tid, db1) := genId db
    let timeline : Timeline := ⟨tid, projectId, name, some description, false, none, none⟩
    match insertTimeline db1 timeline with
    | none => (false, db)
    | some db2 =>
      let (did, db3) := genId db2
      let dup := { canonEntry with id := did, timeline_id := some tid, version := 1 }
      match insertCanonEntry db3 dup with
      | none => (false, db3)
      | some db4 => (true, db4)

/-- The resolution request shape (ConflictResolutionRequest). -/
structure ConflictResolutionRequest where
  conflictId : Id
  resolution : ConflictResolution
  updatedCanonData : Option EntityData
  timelineName : Option String
  timelineDescription : Option String
deriving DecidableEq

/-- CanonManager.resolveConflict: keep_canon is a no-op, update_canon delegates
to updateEntry with reason 'Canon updated via conflict resolution', and
fork_timeline delegates to forkTimeline with default name and description. -/
def resolveConflict (db : DB) (projectId : Id) (request : ConflictResolutionRequest)
    (userId : Id) : Bool × DB :=
  match request.resolution with
  | .keep_canon => (true, db)
  | .update_canon =>
    match request.updatedCanonData with
    | none => (false, db)
    | some d => updateEntry db request.conflictId ⟨none, none, some d⟩ (some userId)
        (some "Canon updated via conflict resolution")
  | .fork_timeline =>
    forkTimeline db projectId request.conflictId
      (truthyOr request.timelineName "Alternate Timeline")
      (truthyOr request.timelineDescription "Created from conflict resolution") userId

/-- CanonManager.restoreVersion: looks the snapshot up and re-applies it through
updateEntry with reason 'Restored to version N'. -/
def restoreVersion (db : DB) (canonEntryId : Id) (version : Nat) (userId : Id) : Bool × DB :=
  match single? (fun v => v.canon_entry_id == canonEntryId && v.version == version)
      db.canon_versions with
  | none => (false, db)
  | some vd =>
    updateEntry db canonEntryId ⟨some vd.name, some vd.description, some vd.data⟩ (some userId)
      (some ("Restored to version " ++ toString version))

/-- One annotated item of the loaded canon context. -/
structure ContextItem where
  id : Id
  name : String
  description : Option String
  locked : Bool
deriving DecidableEq

/-- The CanonContext assembled by loadCanonContext, grouped by kind. -/
structure CanonContext where
  characters : List ContextItem
  locations : List ContextItem
  rules : List ContextItem
  events : List ContextItem
  themes : List ContextItem
deriving DecidableEq

/-- One kind-specific load (loadCharacters and its four siblings): the
kind-specific rows of the project inner-joined to their canon entry, filtered
to active entries, annotated with locked := lock_status != unlocked. -/
def loadKind (entries : List CanonEntry) (tbl : List TypeRecord) (projectId : Id) :
    List ContextItem :=
  tbl.filterMap (fun r =>
    if r.project_id == projectId then
      match entries.find? (fun e => e.id == r.canon_entry_id) with
      | some e =>
        if e.is_active then some ⟨r.id, r.name, e.description, e.lock_status != .unlocked⟩
        else none
      | none => none
    else none)

/-- CanonManager.loadCanonContext: loads the five kinds in parallel; there is no
timeline parameter and no filter on timeline_id. -/
def loadCanonContext (db : DB) (projectId : Id) : CanonContext :=
  ⟨loadKind db.canon_entries db.canon_characters projectId,
   loadKind db.canon_entries db.canon_locations projectId,
   loadKind db.canon_entries db.canon_rules projectId,
   loadKind db.canon_entries db.canon_events projectId,
   loadKind db.canon_entries db.canon_themes projectId⟩

/-- The context list a given entity kind lands in (empty for the kinds the
loader does not handle). -/
def contextItemsFor (k : EntityType) (ctx : CanonContext) : List ContextItem :=
  match k with
  | .character => ctx.characters
  | .location => ctx.locations
  | .rule => ctx.rules
  | .event => ctx.events
  | .theme => ctx.themes
  | _ => []

/-- The kind-specific table a given entity kind is stored in. -/
def tableFor (k : EntityType) (db : DB) : List TypeRecord :=
  match k with
  | .character => db.canon_characters
  | .location => db.canon_locations
  | .rule => db.canon_rules
  | .event => db.canon_events
  | .theme => db.canon_themes
  | _ => []

/-- All stored entry ids are below the fresh-id counter (true of every state the
uuid-generating store can reach). -/
def WfIds (db : DB) : Bool :=
  db.canon_entries.all (fun e => decide (e.id < db.nextId))

/-- Conflict kind reported by the detector (the type field of CanonConflict). -/
inductive ConflictKind
  | character
  | location
  | rule
  | event
  | theme
  | timeline
deriving DecidableEq

/-- Conflict severity. -/
inductive Severity
  | warning
  | error
deriving DecidableEq

/-- A detected conflict (interface CanonConflict of the storyforge types). -/
structure CanonConflict where
  id : String
  type : ConflictKind
  severity : Severity
  description : String
  conflictingCanonId : String
  conflictingCanonName : String
  suggestedResolution : Option String
  generatedText : String
  posStart : Nat
  posEnd : Nat
deriving DecidableEq

/-- The configured enforcement level (StoryForgeConfig.canonEnforcement). -/
inductive Enforcement
  | strict
  | moderate
  | relaxed
deriving DecidableEq

/-- The slice of StoryForgeConfig the canon validation logic reads; the model
name and sampling parameters only shape the outbound prompt. -/
structure StoryForgeConfig where
  canonEnforcement : Enforcement
deriving DecidableEq

/-- Outcome of the call to the external text-generation collaborator: either it
is unreachable or throws (failure, covering also a non-text content block), or
it returns a text. -/
inductive CollabResult
  | failure
  | text (s : String)
deriving DecidableEq

/-- The regex match responseContent.text.match(bracketed anything, greedy):
the substring from the first opening square bracket to the last closing square
bracket, when such a span exists. -/
def extractJsonArray (s : String) : Option String :=
  let cs := s.toList
  let pre := cs.takeWhile (fun c => c ≠ '[')
  let rest := cs.drop pre.length
  match rest with
  | [] => none
  | _ =>
    let tail := rest.reverse.dropWhile (fun c => c ≠ ']')
    match tail with
    | [] => none
    | _ => some (String.mk tail.reverse)

/-- One element of the array JSON.parse produced. The source casts the parsed
array to the conflict type with a compile-time-only assertion and performs no
runtime shape validation, so an element is either a genuinely conflict-shaped
object or any other JSON value. The only field the code reads from an element
afterwards is severity (in the moderate filter); a non-conflict element is
therefore modelled by the severity value its JSON happens to carry, if any
(reading a missing field yields undefined in JS). -/
inductive ParsedItem
  | conflict (c : CanonConflict)
  | other (severity : Option Severity)
deriving DecidableEq

/-- The JS test (c.severity === 'error') on an array element after the
unchecked cast: undefined or any non-error value fails it. -/
def severityIsError : ParsedItem → Bool
  | .conflict c => c.severity == .error
  | .other s => s == some .error

/-- StoryForgeGenerator.validateAgainstCanon. The collaborator call and the
JSON.parse builtin are external collaborators: the first is the respond
argument, the second the jsonParse argument, whose none models JSON.parse
throwing on the bracketed span and whose some returns whatever array it
parsed, conflict-shaped or not - the source does not validate the shape.
Every exception inside the try block is caught and collapsed to the empty
list; under relaxed enforcement the collaborator is never consulted, and
under moderate only elements passing the severity === error test survive
the final filter. -/
def validateAgainstCanon (cfg : StoryForgeConfig) (respond : CollabResult)
    (jsonParse : String → Option (List ParsedItem)) (content : String)
    (ctx : CanonContext) : List ParsedItem :=
  if cfg.canonEnforcement = .relaxed then []
  else
    match respond with
    | .failure => []
    | .text s =>
      match extractJsonArray s with
      | none => []
      | some js =>
        match jsonParse js with
        | none => []
        | some conflicts =>
          if cfg.canonEnforcement = .moderate then
            conflicts.filter (fun c => severityIsError c)
          else conflicts

/-! Concrete stores and values used as witnesses and counterexamples. -/

/-- A project-0 store holding one hard-locked character entry (id 1, version 3)
with its kind-specific row and its version history. -/
def dbHard : DB :=
  ⟨[⟨1, 0, .character, "Elena", "elena", none, [("eyeColor", "brown")], .hard_locked, 3, none, true⟩],
   [⟨1, 1, "Elena", none, [("eyeColor", "brown")], none, "Created", "manual"⟩],
   [], [⟨2, 1, 0, "Elena", []⟩], [], [], [], [], 10⟩

/-- Like dbHard but with the entry unlocked, plus two stored versions. -/
def dbPlain : DB :=
  ⟨[⟨1, 0, .character, "Elena", "elena", none, [("eyeColor", "brown")], .unlocked, 2, none, true⟩],
   [⟨1, 1, "Elena", some "the heroine", [("eyeColor", "green")], none, "Created", "manual"⟩,
    ⟨1, 2, "Elena", none, [("eyeColor", "brown")], some 7, "Updated", "manual"⟩],
   [], [⟨2, 1, 0, "Elena", []⟩], [], [], [], [], 10⟩

/-- Like dbPlain but hard-locked: version 1 exists, yet restore is refused. -/
def dbRestoreHard : DB :=
  ⟨[⟨1, 0, .character, "Elena", "elena", none, [("eyeColor", "brown")], .hard_locked, 2, none, true⟩],
   [⟨1, 1, "Elena", some "the heroine", [("eyeColor", "green")], none, "Created", "manual"⟩,
    ⟨1, 2, "Elena", none, [("eyeColor", "brown")], some 7, "Updated", "manual"⟩],
   [], [⟨2, 1, 0, "Elena", []⟩], [], [], [], [], 10⟩

/-- A project-1 store with a main timeline (id 10) and one active, unlocked
entry (id 20), ready for a fork_timeline resolution. -/
def dbFork : DB :=
  ⟨[⟨20, 1, .character, "Elena", "elena", none, [("eyeColor", "brown")], .unlocked, 3, none, true⟩],
   [], [⟨10, 1, "Main", none, true, none, none⟩], [], [], [], [], [], 50⟩

/-- A project-1 store whose single active character entry sits on timeline 99,
not on the main timeline. -/
def dbTimelineLeak : DB :=
  ⟨[⟨2, 1, .character, "Zed", "zed", none, [], .unlocked, 1, some 99, true⟩],
   [], [⟨98, 1, "Main", none, true, none, none⟩, ⟨99, 1, "Alt", none, false, some 98, none⟩],
   [⟨3, 2, 1, "Zed", []⟩], [], [], [], [], 100⟩

/-- The empty store. -/
def dbEmpty : DB := ⟨[], [], [], [], [], [], [], [], 0⟩

/-- A warning-severity conflict fixture. -/
def conflictWarn : CanonConflict :=
  ⟨"c1", .character, .warning, "tone drift", "20", "Elena", none, "Elena smiled", 0, 12⟩

/-- An error-severity conflict fixture. -/
def conflictErr : CanonConflict :=
  ⟨"c2", .character, .error, "eye color contradicts canon", "20", "Elena",
   some "keep brown eyes", "blue eyes", 10, 19⟩

/-- A parse oracle recognising exactly one conflict-shaped payload. -/
def jpFixture : String → Option (List ParsedItem) :=
  fun js => if js = "[S]" then some [.conflict conflictWarn, .conflict conflictErr] else none

/-- A parse oracle whose one recognised payload is a plain number array: JSON
that parses fine but is not a conflict list. -/
def jpJunk : String → Option (List ParsedItem) :=
  fun js => if js = "[1,2]" then some [.other none, .other none] else none

/-! Helper lemmas about the store operations. -/

theorem filter_map_comm {α : Type} (f : α → α) (p : α → Bool) (hf : ∀ x, p (f x) = p x)
    (l : List α) : (l.map f).filter p = (l.filter p).map f := by
  induction l with
  | nil => rfl
  | cons a t ih =>
    by_cases h : p a = true
    · simp [List.filter_cons, hf, h, ih]
    · simp only [Bool.not_eq_true] at h
      simp [List.filter_cons, hf, h, ih]

theorem single?_map {α : Type} (f : α → α) (p : α → Bool) (hf : ∀ x, p (f x) = p x)
    (l : List α) : single? p (l.map f) = (single? p l).map f := by
  unfold single?
  rw [filter_map_comm f p hf]
  match l.filter p with
  | [] => rfl
  | [a] => rfl
  | a :: b :: t => rfl

theorem single?_eq_some {α : Type} {p : α → Bool} {l : List α} {a : α}
    (h : single? p l = some a) : p a = true ∧ a ∈ l := by
  unfold single? at h
  match hf : l.filter p with
  | [] => rw [hf] at h; exact absurd h (by simp)
  | [b] =>
    rw [hf] at h
    simp only [Option.some.injEq] at h
    have hb : b ∈ l.filter p := by rw [hf]; exact List.mem_singleton.mpr rfl
    rw [← h]
    exact ⟨(List.mem_filter.mp hb).2, (List.mem_filter.mp hb).1⟩
  | b :: c :: t => rw [hf] at h; exact absurd h (by simp)

theorem any_congr {α : Type} {p q : α → Bool} (l : List α) (h : ∀ x ∈ l, p x = q x) :
    l.any p = l.any q := by
  induction l with
  | nil => rfl
  | cons a t ih =>
    simp only [List.any_cons]
    rw [h a (List.mem_cons_self a t), ih (fun x hx => h x (List.mem_cons_of_mem a hx))]

@[simp] theorem applyEntryUpdates_id (u : EntryPatch) (c x : CanonEntry) :
    (applyEntryUpdates u c x).id = x.id := by
  unfold applyEntryUpdates
  cases truthy u.name <;> cases u.description <;> cases u.entityData <;> rfl

@[simp] theorem applyEntryUpdates_project (u : EntryPatch) (c x : CanonEntry) :
    (applyEntryUpdates u c x).project_id = x.project_id := by
  unfold applyEntryUpdates
  cases truthy u.name <;> cases u.description <;> cases u.entityData <;> rfl

@[simp] theorem applyEntryUpdates_active (u : EntryPatch) (c x : CanonEntry) :
    (applyEntryUpdates u c x).is_active = x.is_active := by
  unfold applyEntryUpdates
  cases truthy u.name <;> cases u.description <;> cases u.entityData <;> rfl

@[simp] theorem applyEntryUpdates_lock (u : EntryPatch) (c x : CanonEntry) :
    (applyEntryUpdates u c x).lock_status = x.lock_status := by
  unfold applyEntryUpdates
  cases truthy u.name <;> cases u.description <;> cases u.entityData <;> rfl

@[simp] theorem applyEntryUpdates_entityType (u : EntryPatch) (c x : CanonEntry) :
    (applyEntryUpdates u c x).entity_type = x.entity_type := by
  unfold applyEntryUpdates
  cases truthy u.name <;> cases u.description <;> cases u.entityData <;> rfl

@[simp] theorem applyEntryUpdates_timeline (u : EntryPatch) (c x : CanonEntry) :
    (applyEntryUpdates u c x).timeline_id = x.timeline_id := by
  unfold applyEntryUpdates
  cases truthy u.name <;> cases u.description <;> cases u.entityData <;> rfl

@[simp] theorem applyEntryUpdates_version (u : EntryPatch) (c x : CanonEntry) :
    (applyEntryUpdates u c x).version = c.version + 1 := by
  unfold applyEntryUpdates
  cases truthy u.name <;> cases u.description <;> cases u.entityData <;> rfl

@[simp] theorem applyEntryUpdates_name (u : EntryPatch) (c x : CanonEntry) :
    (applyEntryUpdates u c x).name = truthyOr u.name x.name := by
  unfold applyEntryUpdates truthyOr
  cases truthy u.name <;> cases u.description <;> cases u.entityData <;> rfl

theorem applyEntryUpdates_slug (u : EntryPatch) (c x : CanonEntry) :
    (applyEntryUpdates u c x).slug =
      (match truthy u.name with | some n => slugify n | none => x.slug) := by
  unfold applyEntryUpdates
  cases truthy u.name <;> cases u.description <;> cases u.entityData <;> rfl

theorem applyEntryUpdates_description (u : EntryPatch) (c x : CanonEntry) :
    (applyEntryUpdates u c x).description = u.description.getD x.description := by
  unfold applyEntryUpdates
  cases truthy u.name <;> cases u.description <;> cases u.entityData <;> rfl

theorem applyEntryUpdates_data (u : EntryPatch) (c x : CanonEntry) :
    (applyEntryUpdates u c x).data = u.entityData.getD x.data := by
  unfold applyEntryUpdates
  cases truthy u.name <;> cases u.description <;> cases u.entityData <;> rfl

@[simp] theorem createVersion_entries (db : DB) (i : Id) (v : Nat) (n : String)
    (d : Option String) (dt : EntityData) (uid : Option Id) (r : String) :
    (createVersion db i v n d dt uid r).canon_entries = db.canon_entries := rfl

@[simp] theorem createVersion_versions (db : DB) (i : Id) (v : Nat) (n : String)
    (d : Option String) (dt : EntityData) (uid : Option Id) (r : String) :
    (createVersion db i v n d dt uid r).canon_versions =
      db.canon_versions ++ [⟨i, v, n, d, dt, uid, r, "manual"⟩] := rfl

@[simp] theorem updateTypeSpecificRecord_entries (db : DB) (k : EntityType) (i : Id)
    (n : String) (d : EntityData) :
    (updateTypeSpecificRecord db k i n d).canon_entries = db.canon_entries := by
  cases k <;> rfl

@[simp] theorem updateTypeSpecificRecord_versions (db : DB) (k : EntityType) (i : Id)
    (n : String) (d : EntityData) :
    (updateTypeSpecificRecord db k i n d).canon_versions = db.canon_versions := by
  cases k <;> rfl

theorem updateEntry_eq (db : DB) (entryId : Id) (u : EntryPatch) (userId : Option Id)
    (reason : Option String) (e : CanonEntry)
    (he : single? (fun x => x.id == entryId) db.canon_entries = some e) :
    updateEntry db entryId u userId reason =
      if e.lock_status = .hard_locked then (false, db)
      else if (applyEntryUpdates u e e).is_active &&
          slugTakenExceptId db entryId (applyEntryUpdates u e e).project_id
            (applyEntryUpdates u e e).slug then (false, db)
      else
        (true, createVersion
          (match u.entityData with
           | some ed => updateTypeSpecificRecord { db with canon_entries := db.canon_entries.map (fun x => if x.id == entryId then applyEntryUpdates u e x else x) } e.entity_type entryId (truthyOr u.name e.name) ed
           | none => { db with canon_entries := db.canon_entries.map (fun x => if x.id == entryId then applyEntryUpdates u e x else x) })
          entryId (e.version + 1) (truthyOr u.name e.name) (nullishOr u.description e.description)
          (u.entityData.getD e.data) userId (truthyOr reason "Updated")) := by
  unfold updateEntry
  rw [he]

theorem updateEntry_fail_state (db : DB) (entryId : Id) (u : EntryPatch)
    (userId : Option Id) (reason : Option String)
    (hfail : (updateEntry db entryId u userId reason).1 = false) :
    (updateEntry db entryId u userId reason).2 = db := by
  cases hsc : single? (fun x => x.id == entryId) db.canon_entries with
  | none => unfold updateEntry; rw [hsc]
  | some c =>
    rw [updateEntry_eq db entryId u userId reason c hsc] at hfail ⊢
    split_ifs at hfail ⊢ <;> simp_all

theorem updateEntry_ok_entries (db : DB) (entryId : Id) (u : EntryPatch)
    (userId : Option Id) (reason : Option String) (e : CanonEntry)
    (he : single? (fun x => x.id == entryId) db.canon_entries = some e)
    (hok : (updateEntry db entryId u userId reason).1 = true) :
    (updateEntry db entryId u userId reason).2.canon_entries
      = db.canon_entries.map (fun x => if x.id == entryId then applyEntryUpdates u e x else x) := by
  rw [updateEntry_eq db entryId u userId reason e he] at hok ⊢
  split_ifs at hok ⊢
  cases hu : u.entityData <;> simp [hu]

theorem updateEntry_ok_versions (db : DB) (entryId : Id) (u : EntryPatch)
    (userId : Option Id) (reason : Option String) (e : CanonEntry)
    (he : single? (fun x => x.id == entryId) db.canon_entries = some e)
    (hok : (updateEntry db entryId u userId reason).1 = true) :
    (updateEntry db entryId u userId reason).2.canon_versions
      = db.canon_versions ++ [⟨entryId, e.version + 1, truthyOr u.name e.name,
          nullishOr u.description e.description, u.entityData.getD e.data, userId,
          truthyOr reason "Updated", "manual"⟩] := by
  rw [updateEntry_eq db entryId u userId reason e he] at hok ⊢
  split_ifs at hok ⊢
  cases hu : u.entityData <;> simp [hu]

theorem truthyOr_of_ne (s d : String) (h : s ≠ "") : truthyOr (some s) d = s := by
  simp [truthyOr, truthy, h]

theorem nullishOr_some (o d : Option String) : nullishOr (some o) d = o.or d := by
  cases o <;> rfl

theorem append_ne_empty_left (s t : String) (hs : s ≠ "") : s ++ t ≠ "" := by
  intro hc
  apply hs
  have hlen := congrArg String.length hc
  rw [String.length_append] at hlen
  have hs0 : s.length = 0 := by
    have h0 : String.length "" = 0 := rfl
    omega
  cases s with
  | mk sd =>
    have hnil : sd = [] := List.length_eq_zero.mp (by simpa using hs0)
    exact String.ext (by simp [hnil])

theorem find?_append_of_none {α : Type} (l₁ l₂ : List α) (p : α → Bool)
    (h : ∀ x ∈ l₁, p x = false) : (l₁ ++ l₂).find? p = l₂.find? p := by
  induction l₁ with
  | nil => rfl
  | cons a t ih =>
    rw [List.cons_append, List.find?_cons_of_neg, ih (fun x hx => h x (List.mem_cons_of_mem a hx))]
    simp [h a (List.mem_cons_self a t)]

theorem single?_append_singleton {α : Type} (l : List α) (a : α) (p : α → Bool)
    (hl : ∀ x ∈ l, p x = false) (ha : p a = true) : single? p (l ++ [a]) = some a := by
  have hnil : l.filter p = [] := List.filter_eq_nil_iff.mpr (fun x hx => by simp [hl x hx])
  unfold single?
  rw [List.filter_append, hnil]
  simp [List.filter, ha]

theorem loadKind_mem (entries : List CanonEntry) (tbl : List TypeRecord) (pid : Id)
    (item : ContextItem) :
    item ∈ loadKind entries tbl pid ↔
      ∃ r ∈ tbl, r.project_id = pid ∧
        ∃ e, entries.find? (fun x => x.id == r.canon_entry_id) = some e ∧ e.is_active = true ∧
          item = ⟨r.id, r.name, e.description, e.lock_status != .unlocked⟩ := by
  unfold loadKind
  rw [List.mem_filterMap]
  constructor
  · rintro ⟨r, hr, hf⟩
    by_cases hp : (r.project_id == pid) = true
    · rw [if_pos hp] at hf
      cases hfind : entries.find? (fun x => x.id == r.canon_entry_id) with
      | none => rw [hfind] at hf; simp at hf
      | some e =>
        rw [hfind] at hf
        by_cases ha : e.is_active = true
        · simp only [ha, if_true] at hf
          exact ⟨r, hr, by simpa using hp, e, hfind, ha, (Option.some.inj hf).symm⟩
        · simp only [Bool.not_eq_true] at ha
          simp [ha] at hf
    · rw [if_neg hp] at hf
      simp at hf
  · rintro ⟨r, hr, hp, e, hfind, ha, hitem⟩
    exact ⟨r, hr, by simp [hp, hfind, ha, hitem]⟩

theorem single?_lockEntry (db : DB) (entryId : Id) (ls : LockStatus) (lockUser : Id)
    (e : CanonEntry) (he : single? (fun x => x.id == entryId) db.canon_entries = some e) :
    single? (fun x => x.id == entryId) (lockEntry db entryId ls lockUser).2.canon_entries
      = some { e with lock_status := ls } := by
  have hf : ∀ x : CanonEntry,
      (((if x.id == entryId then { x with lock_status := ls } else x) : CanonEntry).id == entryId)
        = (x.id == entryId) := by
    intro x
    by_cases h : (x.id == entryId) = true <;> simp [h]
  show single? (fun x => x.id == entryId)
      (db.canon_entries.map (fun x => if x.id == entryId then { x with lock_status := ls } else x))
    = some { e with lock_status := ls }
  rw [single?_map _ _ hf, he]
  have hpe : e.id = entryId := by simpa using (single?_eq_some he).1
  simp [hpe]

theorem slugTakenExceptId_lockEntry (db : DB) (entryId : Id) (ls : LockStatus) (lockUser : Id)
    (exceptId pid : Id) (slug : String) :
    slugTakenExceptId (lockEntry db entryId ls lockUser).2 exceptId pid slug
      = slugTakenExceptId db exceptId pid slug := by
  show (db.canon_entries.map (fun x => if x.id == entryId then { x with lock_status := ls } else x)).any _
      = db.canon_entries.any _
  rw [List.any_map]
  apply any_congr
  intro x hx
  by_cases h : (x.id == entryId) = true <;> simp [h, Function.comp]

/-- C1: once an entry is hard_locked, every updateEntry call on it fails and the
store (including the version counter) is left exactly as it was; the same holds
through the update_canon path of resolveConflict; and once the lock state is
moved away from hard_locked by lockEntry, an update (here, the payload patch
the update_canon path sends) succeeds again. The source signals the failure by
returning false (with a console error), which this model records as the false
result; no row is written on that path. -/
theorem hard_lock_blocks_updates
    (db : DB) (entryId : Id) (e : CanonEntry)
    (he : single? (fun x => x.id == entryId) db.canon_entries = some e)
    (hl : e.lock_status = .hard_locked)
    (hslug : slugTakenExceptId db entryId e.project_id e.slug = false) :
    (∀ u userId reason, updateEntry db entryId u userId reason = (false, db))
    ∧ (∀ projectId d tn td userId,
        resolveConflict db projectId ⟨entryId, .update_canon, some d, tn, td⟩ userId = (false, db))
    ∧ (∀ ls lockUser d userId reason, ls ≠ LockStatus.hard_locked →
        (updateEntry (lockEntry db entryId ls lockUser).2 entryId ⟨none, none, some d⟩
          userId reason).1 = true) := by
  refine ⟨?_, ?_, ?_⟩
  · intro u userId reason
    rw [updateEntry_eq db entryId u userId reason e he, if_pos hl]
  · intro projectId d tn td userId
    show updateEntry db entryId ⟨none, none, some d⟩ (some userId)
        (some "Canon updated via conflict resolution") = (false, db)
    rw [updateEntry_eq db entryId _ _ _ e he, if_pos hl]
  · intro ls lockUser d userId reason hls
    have he2 := single?_lockEntry db entryId ls lockUser e he
    rw [updateEntry_eq _ entryId ⟨none, none, some d⟩ userId reason _ he2]
    rw [if_neg (show ¬(({ e with lock_status := ls } : CanonEntry).lock_status = .hard_locked)
      from by simpa using hls)]
    have hslug2 : (applyEntryUpdates ⟨none, none, some d⟩ { e with lock_status := ls }
        { e with lock_status := ls }).slug = e.slug := by
      rw [applyEntryUpdates_slug]; rfl
    rw [if_neg ?hc]
    case hc =>
      rw [applyEntryUpdates_project, hslug2]
      have : ({ e with lock_status := ls } : CanonEntry).project_id = e.project_id := rfl
      rw [this, slugTakenExceptId_lockEntry, hslug]
      simp

/-- C1 witness: the hard-locked entry of dbHard rejects the eye-color patch both
directly and through resolveConflict, and accepts it after unlocking. -/
theorem hard_lock_blocks_updates_witness :
    single? (fun x => x.id == 1) dbHard.canon_entries
        = some ⟨1, 0, .character, "Elena", "elena", none, [("eyeColor", "brown")], .hard_locked, 3, none, true⟩
    ∧ updateEntry dbHard 1 ⟨none, none, some [("eyeColor", "blue")]⟩ (some 7) none = (false, dbHard)
    ∧ resolveConflict dbHard 0 ⟨1, .update_canon, some [("eyeColor", "blue")], none, none⟩ 7 = (false, dbHard)
    ∧ (updateEntry (lockEntry dbHard 1 .unlocked 7).2 1 ⟨none, none, some [("eyeColor", "blue")]⟩
        (some 7) none).1 = true := by
  have h := hard_lock_blocks_updates dbHard 1
    ⟨1, 0, .character, "Elena", "elena", none, [("eyeColor", "brown")], .hard_locked, 3, none, true⟩
    (by decide) (by decide) (by decide)
  exact ⟨by decide, h.1 _ _ _, h.2.1 _ _ _ _ _, h.2.2 .unlocked 7 _ _ _ (by decide)⟩

/-- C3: whenever updateEntry reports success, the stored version of the entry is
exactly the previously stored version plus one, and whenever it reports
failure, the store is unchanged; so the version values over successive
successful updates climb by exactly 1 with no gaps and never decrease. -/
theorem updateEntry_version_increment
    (db : DB) (entryId : Id) (u : EntryPatch) (userId : Option Id) (reason : Option String)
    (e : CanonEntry)
    (he : single? (fun x => x.id == entryId) db.canon_entries = some e) :
    ((updateEntry db entryId u userId reason).1 = true →
      ∃ e2, single? (fun x => x.id == entryId)
          (updateEntry db entryId u userId reason).2.canon_entries = some e2
        ∧ e2.version = e.version + 1)
    ∧ ((updateEntry db entryId u userId reason).1 = false →
      (updateEntry db entryId u userId reason).2 = db) := by
  constructor
  · intro hok
    have hent := updateEntry_ok_entries db entryId u userId reason e he hok
    have hf : ∀ x : CanonEntry,
        ((if x.id == entryId then applyEntryUpdates u e x else x).id == entryId)
          = (x.id == entryId) := by
      intro x
      by_cases h : (x.id == entryId) = true <;> simp [h]
    refine ⟨applyEntryUpdates u e e, ?_, by simp⟩
    rw [hent, single?_map _ _ hf, he]
    have hpe : e.id = entryId := by simpa using (single?_eq_some he).1
    simp [hpe]
  · exact updateEntry_fail_state db entryId u userId reason

/-- C3 witness: updating the unlocked version-2 entry of dbPlain succeeds and
stores version 3. -/
theorem updateEntry_version_increment_witness :
    single? (fun x => x.id == 1) dbPlain.canon_entries
        = some ⟨1, 0, .character, "Elena", "elena", none, [("eyeColor", "brown")], .unlocked, 2, none, true⟩
    ∧ (updateEntry dbPlain 1 ⟨none, none, some [("eyeColor", "blue")]⟩ (some 7) none).1 = true
    ∧ ∃ e2, single? (fun x => x.id == 1)
          (updateEntry dbPlain 1 ⟨none, none, some [("eyeColor", "blue")]⟩ (some 7) none).2.canon_entries
        = some e2 ∧ e2.version = 3 := by
  have h := updateEntry_version_increment dbPlain 1 ⟨none, none, some [("eyeColor", "blue")]⟩
    (some 7) none
    ⟨1, 0, .character, "Elena", "elena", none, [("eyeColor", "brown")], .unlocked, 2, none, true⟩
    (by decide)
  obtain ⟨e2, h1, h2⟩ := h.1 (by decide)
  exact ⟨by decide, by decide, e2, h1, h2⟩

/-- C8 counterexample: a successful resolveConflict with update_canon appends a
version row whose change classification is the string manual, not
conflict-resolution; only the free-text reason marks the conflict path. -/
theorem resolveConflict_change_type_cex :
    (resolveConflict dbPlain 0 ⟨1, .update_canon, some [("eyeColor", "blue")], none, none⟩ 7).1 = true
    ∧ ((resolveConflict dbPlain 0 ⟨1, .update_canon, some [("eyeColor", "blue")], none, none⟩ 7).2.canon_versions.map
        (fun v => (v.change_reason, v.change_type)))
      = [("Created", "manual"), ("Updated", "manual"),
         ("Canon updated via conflict resolution", "manual")]
    ∧ "manual" ≠ "conflict-resolution" := by decide

/-- C8 corrected: every successful updateEntry appends exactly one CanonVersion
snapshot tagged with the caller-supplied reason (default Updated) and with the
change classification always recorded as manual; the snapshot holds the
post-patch name and payload, and the patched description when the patch
carries a non-null one, but a null patch description leaves the snapshot's
description at the pre-patch value (the JS nullish fallback in the
createVersion call) even though the entry row itself is set to null. The
update_canon path of resolveConflict, whose patch has no description field,
therefore appends a snapshot of the post-patch state with reason Canon updated
via conflict resolution and classification manual, not conflict-resolution. -/
theorem updateEntry_version_row
    (db : DB) (entryId : Id) (u : EntryPatch) (userId : Option Id) (reason : Option String)
    (projectId : Id) (d : EntityData) (tn td : Option String) (uid : Id) (e : CanonEntry)
    (he : single? (fun x => x.id == entryId) db.canon_entries = some e) :
    ((updateEntry db entryId u userId reason).1 = true →
      (updateEntry db entryId u userId reason).2.canon_versions
        = db.canon_versions ++ [⟨entryId, e.version + 1, truthyOr u.name e.name,
            nullishOr u.description e.description, u.entityData.getD e.data, userId,
            truthyOr reason "Updated", "manual"⟩])
    ∧ ((resolveConflict db projectId ⟨entryId, .update_canon, some d, tn, td⟩ uid).1 = true →
      (resolveConflict db projectId ⟨entryId, .update_canon, some d, tn, td⟩ uid).2.canon_versions
        = db.canon_versions ++ [⟨entryId, e.version + 1, e.name, e.description, d, some uid,
            "Canon updated via conflict resolution", "manual"⟩]) := by
  constructor
  · exact updateEntry_ok_versions db entryId u userId reason e he
  · intro hok
    show (updateEntry db entryId ⟨none, none, some d⟩ (some uid)
        (some "Canon updated via conflict resolution")).2.canon_versions = _
    rw [updateEntry_ok_versions db entryId ⟨none, none, some d⟩ (some uid)
      (some "Canon updated via conflict resolution") e he hok]
    rw [truthyOr_of_ne _ _ (by decide)]
    rfl

/-- C8 witness: the update_canon resolution on dbPlain succeeds and appends the
predicted manual-classified snapshot. -/
theorem updateEntry_version_row_witness :
    single? (fun x => x.id == 1) dbPlain.canon_entries
        = some ⟨1, 0, .character, "Elena", "elena", none, [("eyeColor", "brown")], .unlocked, 2, none, true⟩
    ∧ (resolveConflict dbPlain 0 ⟨1, .update_canon, some [("eyeColor", "blue")], none, none⟩ 7).1 = true
    ∧ (resolveConflict dbPlain 0 ⟨1, .update_canon, some [("eyeColor", "blue")], none, none⟩ 7).2.canon_versions
      = dbPlain.canon_versions ++ [⟨1, 3, "Elena", none, [("eyeColor", "blue")], some 7,
          "Canon updated via conflict resolution", "manual"⟩] := by
  have h := updateEntry_version_row dbPlain 1 ⟨none, none, some [("eyeColor", "blue")]⟩
    (some 7) none 0 [("eyeColor", "blue")] none none 7
    ⟨1, 0, .character, "Elena", "elena", none, [("eyeColor", "brown")], .unlocked, 2, none, true⟩
    (by decide)
  exact ⟨by decide, by decide, h.2 (by decide)⟩

theorem restoreVersion_eq_none (db : DB) (entryId : Id) (n : Nat) (uid : Id)
    (hv : single? (fun v => v.canon_entry_id == entryId && v.version == n) db.canon_versions
      = none) : restoreVersion db entryId n uid = (false, db) := by
  unfold restoreVersion
  rw [hv]

theorem restoreVersion_eq_some (db : DB) (entryId : Id) (n : Nat) (uid : Id) (vd : CanonVersion)
    (hv : single? (fun v => v.canon_entry_id == entryId && v.version == n) db.canon_versions
      = some vd) :
    restoreVersion db entryId n uid
      = updateEntry db entryId ⟨some vd.name, some vd.description, some vd.data⟩ (some uid)
          (some ("Restored to version " ++ toString n)) := by
  unfold restoreVersion
  rw [hv]

/-- C4 counterexample: on a hard-locked entry whose version 1 snapshot exists,
restoreVersion fails and appends no new version, so it does not always produce
a new version and does not fail only when the requested version is missing. -/
theorem restoreVersion_hard_locked_cex :
    (single? (fun v => v.canon_entry_id == 1 && v.version == 1) dbRestoreHard.canon_versions).isSome
        = true
    ∧ restoreVersion dbRestoreHard 1 1 7 = (false, dbRestoreHard)
    ∧ (restoreVersion dbRestoreHard 1 1 7).2.canon_versions.map (fun v => v.version) = [1, 2] := by
  decide

/-- C4 corrected: restoreVersion never deletes a stored CanonVersion row (the
history only ever grows) and fails without touching the store when version N
does not exist; when version N exists, the entry is not hard_locked, the
snapshot name is nonempty and re-slugging that name collides with no other
active entry, it succeeds: the entry is stored at version current+1 with
exactly the version-N name, description and payload, and the appended version
row records the version-N name and payload together with the version-N
description when that description is non-null - when version N stored a null
description, the appended row keeps the pre-restore description instead (the
JS nullish fallback in the snapshot write), even though the entry row itself
is set to null. -/
theorem restoreVersion_append_only
    (db : DB) (entryId : Id) (n : Nat) (uid : Id) (e : CanonEntry) (vd : CanonVersion)
    (he : single? (fun x => x.id == entryId) db.canon_entries = some e) :
    (∃ tail, (restoreVersion db entryId n uid).2.canon_versions = db.canon_versions ++ tail)
    ∧ (single? (fun v => v.canon_entry_id == entryId && v.version == n) db.canon_versions = none →
        restoreVersion db entryId n uid = (false, db))
    ∧ (single? (fun v => v.canon_entry_id == entryId && v.version == n) db.canon_versions = some vd →
        e.lock_status ≠ .hard_locked →
        vd.name ≠ "" →
        slugTakenExceptId db entryId e.project_id (slugify vd.name) = false →
        (restoreVersion db entryId n uid).1 = true
        ∧ (∃ e2, single? (fun x => x.id == entryId)
              (restoreVersion db entryId n uid).2.canon_entries = some e2
            ∧ e2.version = e.version + 1 ∧ e2.name = vd.name
            ∧ e2.description = vd.description ∧ e2.data = vd.data)
        ∧ (restoreVersion db entryId n uid).2.canon_versions = db.canon_versions
            ++ [⟨entryId, e.version + 1, vd.name, vd.description.or e.description, vd.data, some uid,
                "Restored to version " ++ toString n, "manual"⟩]) := by
  refine ⟨?_, fun hv => restoreVersion_eq_none db entryId n uid hv, ?_⟩
  · cases hv : single? (fun v => v.canon_entry_id == entryId && v.version == n) db.canon_versions with
    | none =>
      refine ⟨[], ?_⟩
      rw [restoreVersion_eq_none db entryId n uid hv]
      simp
    | some vd0 =>
      rw [restoreVersion_eq_some db entryId n uid vd0 hv]
      by_cases hok : (updateEntry db entryId ⟨some vd0.name, some vd0.description, some vd0.data⟩
          (some uid) (some ("Restored to version " ++ toString n))).1 = true
      · exact ⟨_, updateEntry_ok_versions db entryId _ _ _ e he hok⟩
      · simp only [Bool.not_eq_true] at hok
        rw [updateEntry_fail_state db entryId _ _ _ hok]
        exact ⟨[], by simp⟩
  · intro hv hl hn hslug
    rw [restoreVersion_eq_some db entryId n uid vd hv]
    have hslugu : (applyEntryUpdates ⟨some vd.name, some vd.description, some vd.data⟩ e e).slug
        = slugify vd.name := by
      rw [applyEntryUpdates_slug]
      simp [truthy, hn]
    have hok : (updateEntry db entryId ⟨some vd.name, some vd.description, some vd.data⟩
        (some uid) (some ("Restored to version " ++ toString n))).1 = true := by
      rw [updateEntry_eq db entryId _ _ _ e he, if_neg hl, if_neg ?hc]
      case hc =>
        rw [applyEntryUpdates_project, hslugu, hslug]
        simp
    refine ⟨hok, ?_, ?_⟩
    · have hent := updateEntry_ok_entries db entryId _ _ _ e he hok
      have hf : ∀ x : CanonEntry,
          ((if x.id == entryId then
              applyEntryUpdates ⟨some vd.name, some vd.description, some vd.data⟩ e x
            else x).id == entryId) = (x.id == entryId) := by
        intro x
        by_cases h : (x.id == entryId) = true <;> simp [h]
      refine ⟨applyEntryUpdates ⟨some vd.name, some vd.description, some vd.data⟩ e e, ?_, ?_, ?_, ?_, ?_⟩
      · rw [hent, single?_map _ _ hf, he]
        have hpe : e.id = entryId := by simpa using (single?_eq_some he).1
        simp [hpe]
      · simp
      · rw [applyEntryUpdates_name, truthyOr_of_ne _ _ hn]
      · rw [applyEntryUpdates_description]; rfl
      · rw [applyEntryUpdates_data]; rfl
    · rw [updateEntry_ok_versions db entryId _ _ _ e he hok]
      rw [truthyOr_of_ne _ _ hn,
        truthyOr_of_ne _ _ (append_ne_empty_left "Restored to version " (toString n) (by decide))]
      rw [show (⟨some vd.name, some vd.description, some vd.data⟩ : EntryPatch).description
            = some vd.description from rfl, nullishOr_some]
      rfl

/-- C4 witness: restoring version 1 of the unlocked entry of dbPlain succeeds,
stores version 3 with the version-1 content, and appends exactly that row. -/
theorem restoreVersion_append_only_witness :
    single? (fun x => x.id == 1) dbPlain.canon_entries
        = some ⟨1, 0, .character, "Elena", "elena", none, [("eyeColor", "brown")], .unlocked, 2, none, true⟩
    ∧ single? (fun v => v.canon_entry_id == 1 && v.version == 1) dbPlain.canon_versions
        = some ⟨1, 1, "Elena", some "the heroine", [("eyeColor", "green")], none, "Created", "manual"⟩
    ∧ (restoreVersion dbPlain 1 1 7).1 = true
    ∧ (restoreVersion dbPlain 1 1 7).2.canon_versions = dbPlain.canon_versions
        ++ [⟨1, 3, "Elena", some "the heroine", [("eyeColor", "green")], some 7,
            "Restored to version " ++ toString 1, "manual"⟩] := by
  have h := restoreVersion_append_only dbPlain 1 1 7
    ⟨1, 0, .character, "Elena", "elena", none, [("eyeColor", "brown")], .unlocked, 2, none, true⟩
    ⟨1, 1, "Elena", some "the heroine", [("eyeColor", "green")], none, "Created", "manual"⟩
    (by decide)
  have h3 := h.2.2 (by decide) (by decide) (by decide) (by decide)
  exact ⟨by decide, by decide, h3.1, h3.2.2⟩

/-- C2 evidence: resolving a conflict on dbFork with fork_timeline reports
failure; the conflicting entry is not duplicated anywhere (the canon_entries
table is unchanged, because the duplicate row reuses the active slug of the
original and the partial unique slug index rejects it), and the one timeline
row the run leaves behind has is_main false but parent_timeline_id null even
though the project has a main timeline (id 10). -/
theorem forkTimeline_failing_run :
    (resolveConflict dbFork 1 ⟨20, .fork_timeline, none, some "Blue-eyed AU", none⟩ 7).1 = false
    ∧ (resolveConflict dbFork 1 ⟨20, .fork_timeline, none, some "Blue-eyed AU", none⟩ 7).2.canon_entries
        = dbFork.canon_entries
    ∧ ((resolveConflict dbFork 1 ⟨20, .fork_timeline, none, some "Blue-eyed AU", none⟩ 7).2.timelines.map
        (fun t => (t.name, t.is_main, t.parent_timeline_id)))
      = [("Main", true, none), ("Blue-eyed AU", false, none)] := by
  decide

/-- C5 counterexample: the active entry of dbTimelineLeak sits on timeline 99
(not on the main timeline), yet loadCanonContext returns it: the loader applies
no timeline filter and takes no timeline argument. -/
theorem loadCanonContext_timeline_cex :
    ((single? (fun x => x.id == 2) dbTimelineLeak.canon_entries).map (fun e => e.timeline_id))
        = some (some 99)
    ∧ (loadCanonContext dbTimelineLeak 1).characters = [⟨3, "Zed", none, false⟩] := by
  decide

/-- C5 corrected: loadCanonContext returns, for each handled kind, exactly the
kind-specific rows of the requested project whose canon entry is active,
regardless of the entry's timeline_id (the loader has no timeline parameter),
and each returned item carries locked = true exactly when the entry's lock
state is not unlocked. -/
theorem loadCanonContext_members (db : DB) (pid : Id) (k : EntityType) (item : ContextItem) :
    item ∈ contextItemsFor k (loadCanonContext db pid) ↔
      ∃ r ∈ tableFor k db, r.project_id = pid ∧
        ∃ e, db.canon_entries.find? (fun x => x.id == r.canon_entry_id) = some e ∧
          e.is_active = true ∧
          item = ⟨r.id, r.name, e.description, e.lock_status != .unlocked⟩ := by
  cases k <;> simp [contextItemsFor, tableFor, loadCanonContext, loadKind_mem]

/-- C5 witness: the forked-timeline character of dbTimelineLeak is produced by
the loader, by the membership characterization. -/
theorem loadCanonContext_members_witness :
    (⟨3, "Zed", none, false⟩ : ContextItem) ∈ contextItemsFor .character (loadCanonContext dbTimelineLeak 1) := by
  refine (loadCanonContext_members dbTimelineLeak 1 .character ⟨3, "Zed", none, false⟩).mpr ?_
  exact ⟨⟨3, 2, 1, "Zed", []⟩, by decide, rfl,
    ⟨2, 1, .character, "Zed", "zed", none, [], .unlocked, 1, some 99, true⟩, by decide, rfl, rfl⟩

/-- C6: conflict filtering follows the configured enforcement level: relaxed
returns the empty list whatever the collaborator would do (the call is skipped
before the collaborator or the parser is consulted), strict returns every
parsed element, and moderate keeps exactly the ones passing the
severity === error test. -/
theorem validateAgainstCanon_enforcement :
    (∀ respond jsonParse content ctx,
        validateAgainstCanon ⟨.relaxed⟩ respond jsonParse content ctx = [])
    ∧ (∀ s js cs jsonParse content ctx,
        extractJsonArray s = some js → jsonParse js = some cs →
        validateAgainstCanon ⟨.strict⟩ (.text s) jsonParse content ctx = cs
        ∧ validateAgainstCanon ⟨.moderate⟩ (.text s) jsonParse content ctx
            = cs.filter (fun c => severityIsError c)) := by
  refine ⟨fun respond jsonParse content ctx => rfl, ?_⟩
  intro s js cs jsonParse content ctx hx hj
  constructor
  · simp [validateAgainstCanon, hx, hj]
  · simp [validateAgainstCanon, hx, hj]

/-- C6 witness: a bracketed payload parsed to one warning and one error is kept
whole under strict, reduced to the error under moderate, and dropped (without
consulting collaborator or parser) under relaxed. -/
theorem validateAgainstCanon_enforcement_witness :
    extractJsonArray "noise [S] tail" = some "[S]"
    ∧ jpFixture "[S]" = some [.conflict conflictWarn, .conflict conflictErr]
    ∧ validateAgainstCanon ⟨.relaxed⟩ (.text "noise [S] tail") jpFixture "story" ⟨[], [], [], [], []⟩ = []
    ∧ validateAgainstCanon ⟨.strict⟩ (.text "noise [S] tail") jpFixture "story" ⟨[], [], [], [], []⟩
        = [.conflict conflictWarn, .conflict conflictErr]
    ∧ validateAgainstCanon ⟨.moderate⟩ (.text "noise [S] tail") jpFixture "story" ⟨[], [], [], [], []⟩
        = [.conflict conflictErr] := by
  have h := validateAgainstCanon_enforcement
  have h2 := h.2 "noise [S] tail" "[S]" [.conflict conflictWarn, .conflict conflictErr] jpFixture "story"
    ⟨[], [], [], [], []⟩ (by decide) (by decide)
  refine ⟨by decide, by decide, h.1 _ _ _ _, h2.1, ?_⟩
  rw [h2.2]
  decide

/-- C7 counterexample: a response whose bracketed span is parseable JSON but
not a conflict list (here the number array in brackets) is not collapsed to
the empty list: under strict enforcement the junk array is returned to the
caller through the unchecked cast. -/
theorem validateAgainstCanon_junk_cex :
    extractJsonArray "xx[1,2]yy" = some "[1,2]"
    ∧ jpJunk "[1,2]" = some [.other none, .other none]
    ∧ validateAgainstCanon ⟨.strict⟩ (.text "xx[1,2]yy") jpJunk "story" ⟨[], [], [], [], []⟩
        = [.other none, .other none]
    ∧ ([ParsedItem.other none, .other none] ≠ ([] : List ParsedItem)) := by
  decide

/-- C7 corrected: whatever the enforcement level, a collaborator failure
(unreachable, thrown exception, non-text content block), a response with no
bracketed span, or a bracketed span on which JSON.parse throws all yield the
empty conflict list, and validateAgainstCanon is a total function, so no
exception reaches the caller; but a bracketed span that parses as JSON without
being a well-formed conflict list is NOT degraded to empty - the unvalidated
array is handed to the caller (see the counterexample). -/
theorem validateAgainstCanon_degrades (cfg : StoryForgeConfig)
    (jsonParse : String → Option (List ParsedItem)) (content : String) (ctx : CanonContext) :
    validateAgainstCanon cfg .failure jsonParse content ctx = []
    ∧ (∀ s, extractJsonArray s = none →
        validateAgainstCanon cfg (.text s) jsonParse content ctx = [])
    ∧ (∀ s js, extractJsonArray s = some js → jsonParse js = none →
        validateAgainstCanon cfg (.text s) jsonParse content ctx = []) := by
  refine ⟨?_, ?_, ?_⟩
  · by_cases hc : cfg.canonEnforcement = .relaxed <;> simp [validateAgainstCanon, hc]
  · intro s hx
    by_cases hc : cfg.canonEnforcement = .relaxed <;> simp [validateAgainstCanon, hc, hx]
  · intro s js hx hj
    by_cases hc : cfg.canonEnforcement = .relaxed <;> simp [validateAgainstCanon, hc, hx, hj]

/-- C7 witness: under strict enforcement, a failed call, a bracketless response
and an unparseable bracketed response each produce the empty list. -/
theorem validateAgainstCanon_degrades_witness :
    extractJsonArray "no brackets here" = none
    ∧ extractJsonArray "xx[1]" = some "[1]"
    ∧ jpFixture "[1]" = none
    ∧ validateAgainstCanon ⟨.strict⟩ .failure jpFixture "story" ⟨[], [], [], [], []⟩ = []
    ∧ validateAgainstCanon ⟨.strict⟩ (.text "no brackets here") jpFixture "story" ⟨[], [], [], [], []⟩ = []
    ∧ validateAgainstCanon ⟨.strict⟩ (.text "xx[1]") jpFixture "story" ⟨[], [], [], [], []⟩ = [] := by
  have h := validateAgainstCanon_degrades ⟨.strict⟩ jpFixture "story" ⟨[], [], [], [], []⟩
  exact ⟨by decide, by decide, by decide, h.1, h.2.1 _ (by decide),
    h.2.2 "xx[1]" "[1]" (by decide) (by decide)⟩

theorem ids_bounded (db : DB) (hwf : WfIds db = true) :
    ∀ x ∈ db.canon_entries, (x.id == db.nextId) = false := by
  intro x hx
  have h := List.all_eq_true.mp hwf x hx
  simp only [decide_eq_true_eq] at h
  simp [Nat.ne_of_lt h]

theorem createEntry_collision (db : DB) (pid : Id) (k : EntityType) (nm : String)
    (desc : Option String) (ed : EntityData)
    (hcol : slugTaken db pid (slugify nm) = true) :
    createEntry db pid k nm desc ed = (none, db) := by
  unfold createEntry genId insertCanonEntry
  have h1 : slugTaken { db with nextId := db.nextId + 1 } pid (slugify nm) = true := hcol
  simp [h1]

theorem createEntry_no_collision (db : DB) (pid : Id) (k : EntityType) (nm : String)
    (desc : Option String) (ed : EntityData)
    (hcol : slugTaken db pid (slugify nm) = false) :
    createEntry db pid k nm desc ed =
      (match createTypeSpecificRecord { db with canon_entries := db.canon_entries ++ [⟨db.nextId, pid, k, nm, slugify nm, desc, ed, .unlocked, 1, none, true⟩], nextId := db.nextId + 1 } k pid db.nextId nm ed with
       | (none, db3) =>
          (none, { db3 with canon_entries := db3.canon_entries.filter (fun x => !(x.id == db.nextId)) })
       | (some entityId, db3) =>
          (some (⟨db.nextId, pid, k, nm, slugify nm, desc, ed, .unlocked, 1, none, true⟩, entityId),
            createVersion db3 db.nextId 1 nm (truthy desc) ed none "Created")) := by
  unfold createEntry genId insertCanonEntry
  have h1 : slugTaken { db with nextId := db.nextId + 1 } pid (slugify nm) = false := hcol
  simp [h1]

theorem ctsr_fst (db : DB) (k : EntityType) (pid eid : Id) (nm : String) (ed : EntityData)
    (hk : k = .character ∨ k = .location ∨ k = .rule ∨ k = .event ∨ k = .theme) :
    (createTypeSpecificRecord db k pid eid nm ed).1 = some db.nextId := by
  rcases hk with rfl | rfl | rfl | rfl | rfl <;> rfl

theorem ctsr_entries (db : DB) (k : EntityType) (pid eid : Id) (nm : String) (ed : EntityData) :
    (createTypeSpecificRecord db k pid eid nm ed).2.canon_entries = db.canon_entries := by
  cases k <;> rfl

theorem ctsr_versions (db : DB) (k : EntityType) (pid eid : Id) (nm : String) (ed : EntityData) :
    (createTypeSpecificRecord db k pid eid nm ed).2.canon_versions = db.canon_versions := by
  cases k <;> rfl

theorem ctsr_timelines (db : DB) (k : EntityType) (pid eid : Id) (nm : String) (ed : EntityData) :
    (createTypeSpecificRecord db k pid eid nm ed).2.timelines = db.timelines := by
  cases k <;> rfl

theorem ctsr_tableFor (db : DB) (k : EntityType) (pid eid : Id) (nm : String) (ed : EntityData)
    (hk : k = .character ∨ k = .location ∨ k = .rule ∨ k = .event ∨ k = .theme) :
    tableFor k (createTypeSpecificRecord db k pid eid nm ed).2
      = tableFor k db ++ [⟨db.nextId, eid, pid, nm, ed⟩] := by
  rcases hk with rfl | rfl | rfl | rfl | rfl <;> rfl

theorem tableFor_createVersion (db : DB) (k : EntityType) (i : Id) (v : Nat) (n : String)
    (d : Option String) (dt : EntityData) (uid : Option Id) (r : String) :
    tableFor k (createVersion db i v n d dt uid r) = tableFor k db := by
  cases k <;> rfl

theorem contextItemsFor_load (db : DB) (pid : Id) (k : EntityType)
    (hk : k = .character ∨ k = .location ∨ k = .rule ∨ k = .event ∨ k = .theme) :
    contextItemsFor k (loadCanonContext db pid) = loadKind db.canon_entries (tableFor k db) pid := by
  rcases hk with rfl | rfl | rfl | rfl | rfl <;> rfl

/-- C9 counterexample: creating an entry of kind item in the empty store has no
slug collision, yet createEntry creates nothing and fails, because the entity
kinds reference, item and relationship (all accepted by the API route) have no
handled kind-specific record. -/
theorem createEntry_unhandled_kind_cex :
    slugTaken dbEmpty 1 (slugify "Sword") = false
    ∧ (createEntry dbEmpty 1 .item "Sword" none []).1 = none
    ∧ (createEntry dbEmpty 1 .item "Sword" none []).2.canon_entries = []
    ∧ (createEntry dbEmpty 1 .item "Sword" none []).2.canon_versions = [] := by
  decide

/-- C9 corrected: for the five handled kinds (character, location, rule, event,
theme), createEntry fails and writes nothing when the slug derived from the
name collides with an active entry of the project (the storage-level partial
unique index rejects the insert; the code has no pre-check); otherwise it
stores the entry at version 1, appends an initial CanonVersion with reason
Created (capitalised in the source) whose description runs through the JS
default (description or null), and the new entry is visible to a subsequent
loadCanonContext of the project. For the remaining kinds createEntry always
fails (see the counterexample). -/
theorem createEntry_slug_and_creation
    (db : DB) (pid : Id) (k : EntityType) (nm : String) (desc : Option String) (ed : EntityData)
    (hk : k = .character ∨ k = .location ∨ k = .rule ∨ k = .event ∨ k = .theme) :
    (slugTaken db pid (slugify nm) = true → createEntry db pid k nm desc ed = (none, db))
    ∧ (slugTaken db pid (slugify nm) = false → WfIds db = true →
        (∃ res, (createEntry db pid k nm desc ed).1 = some res)
        ∧ single? (fun x => x.id == db.nextId) (createEntry db pid k nm desc ed).2.canon_entries
            = some ⟨db.nextId, pid, k, nm, slugify nm, desc, ed, .unlocked, 1, none, true⟩
        ∧ (createEntry db pid k nm desc ed).2.canon_versions
            = db.canon_versions ++ [⟨db.nextId, 1, nm, truthy desc, ed, none, "Created", "manual"⟩]
        ∧ (⟨db.nextId + 1, nm, desc, false⟩ : ContextItem)
            ∈ contextItemsFor k (loadCanonContext (createEntry db pid k nm desc ed).2 pid)) := by
  constructor
  · exact createEntry_collision db pid k nm desc ed
  · intro hcol hwf
    rw [createEntry_no_collision db pid k nm desc ed hcol]
    set db2 : DB := { db with canon_entries := db.canon_entries ++ [⟨db.nextId, pid, k, nm, slugify nm, desc, ed, .unlocked, 1, none, true⟩], nextId := db.nextId + 1 } with hdb2
    cases hc : createTypeSpecificRecord db2 k pid db.nextId nm ed with
    | mk oi db3 =>
      have hfst : oi = some db2.nextId := by
        have := ctsr_fst db2 k pid db.nextId nm ed hk
        rw [hc] at this
        exact this
      subst hfst
      have hents : db3.canon_entries = db2.canon_entries := by
        have := ctsr_entries db2 k pid db.nextId nm ed
        rw [hc] at this
        exact this
      have hvers : db3.canon_versions = db2.canon_versions := by
        have := ctsr_versions db2 k pid db.nextId nm ed
        rw [hc] at this
        exact this
      have htbl : tableFor k db3 = tableFor k db2 ++ [⟨db2.nextId, db.nextId, pid, nm, ed⟩] := by
        have := ctsr_tableFor db2 k pid db.nextId nm ed hk
        rw [hc] at this
        exact this
      have hold : ∀ x ∈ db.canon_entries, (x.id == db.nextId) = false := ids_bounded db hwf
      refine ⟨⟨_, rfl⟩, ?_, ?_, ?_⟩
      · show single? (fun x => x.id == db.nextId) (createVersion db3 db.nextId 1 nm (truthy desc) ed none "Created").canon_entries = _
        rw [createVersion_entries, hents]
        exact single?_append_singleton db.canon_entries _ _ hold (by simp)
      · show (createVersion db3 db.nextId 1 nm (truthy desc) ed none "Created").canon_versions = _
        rw [createVersion_versions, hvers]
      · show (⟨db.nextId + 1, nm, desc, false⟩ : ContextItem)
            ∈ contextItemsFor k (loadCanonContext (createVersion db3 db.nextId 1 nm (truthy desc) ed none "Created") pid)
        rw [contextItemsFor_load _ pid k hk]
        refine (loadKind_mem _ _ pid ⟨db.nextId + 1, nm, desc, false⟩).mpr ?_
        refine ⟨⟨db.nextId + 1, db.nextId, pid, nm, ed⟩, ?_, rfl, ?_⟩
        · show (⟨db.nextId + 1, db.nextId, pid, nm, ed⟩ : TypeRecord)
              ∈ tableFor k (createVersion db3 db.nextId 1 nm (truthy desc) ed none "Created")
          rw [tableFor_createVersion, htbl]
          exact List.mem_append_right _ (List.mem_singleton.mpr rfl)
        · refine ⟨⟨db.nextId, pid, k, nm, slugify nm, desc, ed, .unlocked, 1, none, true⟩, ?_, rfl, rfl⟩
          show (createVersion db3 db.nextId 1 nm (truthy desc) ed none "Created").canon_entries.find?
              (fun x => x.id == db.nextId) = _
          rw [createVersion_entries, hents]
          rw [find?_append_of_none db.canon_entries _ _ hold]
          exact List.find?_cons_of_pos _ (by simp)

/-- C9 witness: creating a character in the empty store succeeds at version 1,
appends the Created snapshot, and the loader of project 1 returns it. -/
theorem createEntry_slug_and_creation_witness :
    slugTaken dbEmpty 1 (slugify "Elena Stone") = false
    ∧ WfIds dbEmpty = true
    ∧ (∃ res, (createEntry dbEmpty 1 .character "Elena Stone" (some "Heroine") [("personality", "bold")]).1 = some res)
    ∧ single? (fun x => x.id == 0)
        (createEntry dbEmpty 1 .character "Elena Stone" (some "Heroine") [("personality", "bold")]).2.canon_entries
      = some ⟨0, 1, .character, "Elena Stone", slugify "Elena Stone", some "Heroine",
          [("personality", "bold")], .unlocked, 1, none, true⟩
    ∧ (createEntry dbEmpty 1 .character "Elena Stone" (some "Heroine") [("personality", "bold")]).2.canon_versions
      = [⟨0, 1, "Elena Stone", truthy (some "Heroine"), [("personality", "bold")], none, "Created", "manual"⟩]
    ∧ (⟨1, "Elena Stone", some "Heroine", false⟩ : ContextItem)
        ∈ contextItemsFor .character
            (loadCanonContext (createEntry dbEmpty 1 .character "Elena Stone" (some "Heroine") [("personality", "bold")]).2 1) := by
  have h := createEntry_slug_and_creation dbEmpty 1 .character "Elena Stone" (some "Heroine")
    [("personality", "bold")] (Or.inl rfl)
  have h2 := h.2 (by decide) (by decide)
  exact ⟨by decide, by decide, h2.1, h2.2.1, h2.2.2.1, h2.2.2.2⟩

/-- C10: createEntry is atomic on failure: whenever it returns none (slug
collision at insert, or an entity kind with no kind-specific record), every
table of the store is exactly as before the call: the shared row inserted
before a kind-specific failure has been deleted again, so no partial entry
remains visible. -/
theorem createEntry_rollback_atomic
    (db : DB) (pid : Id) (k : EntityType) (nm : String) (desc : Option String) (ed : EntityData)
    (hwf : WfIds db = true)
    (hnone : (createEntry db pid k nm desc ed).1 = none) :
    (createEntry db pid k nm desc ed).2.canon_entries = db.canon_entries
    ∧ (createEntry db pid k nm desc ed).2.canon_versions = db.canon_versions
    ∧ (createEntry db pid k nm desc ed).2.timelines = db.timelines
    ∧ (createEntry db pid k nm desc ed).2.canon_characters = db.canon_characters
    ∧ (createEntry db pid k nm desc ed).2.canon_locations = db.canon_locations
    ∧ (createEntry db pid k nm desc ed).2.canon_rules = db.canon_rules
    ∧ (createEntry db pid k nm desc ed).2.canon_events = db.canon_events
    ∧ (createEntry db pid k nm desc ed).2.canon_themes = db.canon_themes := by
  by_cases hcol : slugTaken db pid (slugify nm) = true
  · rw [createEntry_collision db pid k nm desc ed hcol]
    exact ⟨rfl, rfl, rfl, rfl, rfl, rfl, rfl, rfl⟩
  · simp only [Bool.not_eq_true] at hcol
    have hold : ∀ x ∈ db.canon_entries, (x.id == db.nextId) = false := ids_bounded db hwf
    have hfilter : (db.canon_entries ++ [(⟨db.nextId, pid, k, nm, slugify nm, desc, ed, .unlocked, 1, none, true⟩ : CanonEntry)]).filter (fun x => !(x.id == db.nextId)) = db.canon_entries := by
      rw [List.filter_append]
      have h1 : db.canon_entries.filter (fun x => !(x.id == db.nextId)) = db.canon_entries :=
        List.filter_eq_self.mpr (fun x hx => by simp [hold x hx])
      rw [h1]
      simp
    rw [createEntry_no_collision db pid k nm desc ed hcol] at hnone ⊢
    cases k with
    | character => exact absurd hnone (by simp [createTypeSpecificRecord, genId])
    | location => exact absurd hnone (by simp [createTypeSpecificRecord, genId])
    | rule => exact absurd hnone (by simp [createTypeSpecificRecord, genId])
    | event => exact absurd hnone (by simp [createTypeSpecificRecord, genId])
    | theme => exact absurd hnone (by simp [createTypeSpecificRecord, genId])
    | reference => exact ⟨hfilter, rfl, rfl, rfl, rfl, rfl, rfl, rfl⟩
    | item => exact ⟨hfilter, rfl, rfl, rfl, rfl, rfl, rfl, rfl⟩
    | relationship => exact ⟨hfilter, rfl, rfl, rfl, rfl, rfl, rfl, rfl⟩

/-- C10 witness: a relationship-kind creation in the empty store fails and
leaves every table empty. -/
theorem createEntry_rollback_atomic_witness :
    WfIds dbEmpty = true
    ∧ (createEntry dbEmpty 1 .relationship "Axe" none []).1 = none
    ∧ (createEntry dbEmpty 1 .relationship "Axe" none []).2.canon_entries = dbEmpty.canon_entries
    ∧ (createEntry dbEmpty 1 .relationship "Axe" none []).2.canon_versions = dbEmpty.canon_versions := by
  have h := createEntry_rollback_atomic dbEmpty 1 .relationship "Axe" none [] (by decide) (by decide)
  exact ⟨by decide, by decide, h.1, h.2.1⟩

end Halcyon
